import Mathlib

/-!
Verification development for the fishing-plugin virtual-economy core:
the SQLite-backed inventory store (`sqlite_inventory_repo.py`), the weighted
gacha draw engine and reward-settlement orchestrator (`gacha_service.py`),
and the oversized-batch ("万连") admission/refund path (`main.py`).

The Python source is shallowly embedded: each repository method and service
function is translated into a pure Lean function over explicit state
(association lists for the SQL tables, an integer balance for the user's
coins).  Database transactions become pure state transitions; the random
source of the draw engine becomes an explicit rational parameter `r` with
`0 ≤ r ≤ totalWeight` (mirroring `random.uniform(0, total_weight)`).
Wall-clock timestamps and auto-increment record ids of audit rows are not
modelled (they are opaque to every property considered here).
-/

/-- The closed enumeration of reward kinds used by the gacha pool items
(the string tags "rod" / "accessory" / "bait" / "coins" / "titles" in the
Python source). -/
inductive ItemKind
  | rod
  | accessory
  | bait
  | coins
  | titles
deriving DecidableEq, Repr, BEq

/-- One entry of a gacha pool (`GachaPoolItem` in the domain model):
kind tag, template/payload id, quantity payload and a non-negative integer
weight. -/
structure GachaPoolItem where
  gachaPoolId : ℕ
  itemType : ItemKind
  itemId : ℕ
  quantity : ℕ
  weight : ℕ
deriving DecidableEq, Repr

/-- A gacha pool: per-draw cost in coins and the ordered list of entries. -/
structure GachaPool where
  poolId : ℕ
  costCoins : ℕ
  items : List GachaPoolItem
deriving DecidableEq, Repr

/-- Total weight of a pool, `sum(item.weight for item in pool.items)`. -/
def totalWeight (pool : GachaPool) : ℕ :=
  (pool.items.map (fun it => it.weight)).sum

/-- The accumulating walk inside `_perform_single_weighted_draw`: running sum
`cw` of weights, return the first entry whose accumulated sum is `≥ r`
(`rand_val <= current_weight` in the source), `None` when the list is
exhausted. -/
def drawWalk (r : ℚ) : List GachaPoolItem → ℕ → Option GachaPoolItem
  | [], _ => none
  | it :: rest, cw =>
    if r ≤ ((cw + it.weight : ℕ) : ℚ) then some it else drawWalk r rest (cw + it.weight)

/-- `_perform_single_weighted_draw(pool)` with the random draw
`rand_val = random.uniform(0, total_weight)` made an explicit parameter `r`
(so `0 ≤ r ≤ totalWeight pool`; when the total weight is `0` the only
possible value is `r = 0`). -/
def performSingleWeightedDraw (pool : GachaPool) (r : ℚ) : Option GachaPoolItem :=
  drawWalk r pool.items 0

lemma drawWalk_of_le_sum (r : ℚ) :
    ∀ (items : List GachaPoolItem) (cw : ℕ), items ≠ [] →
      r ≤ ((cw + (items.map (fun it => it.weight)).sum : ℕ) : ℚ) →
      ∃ it, it ∈ items ∧ drawWalk r items cw = some it := by
  intro items
  induction items with
  | nil => intro cw h _; exact absurd rfl h
  | cons a rest ih =>
    intro cw _ hle
    by_cases hc : r ≤ ((cw + a.weight : ℕ) : ℚ)
    · refine ⟨a, List.mem_cons_self a rest, ?_⟩
      simp only [drawWalk]
      rw [if_pos hc]
    · cases rest with
      | nil =>
        exfalso
        apply hc
        have hs : cw + (List.map (fun it => it.weight) [a]).sum = cw + a.weight := by
          simp
        rw [hs] at hle
        exact hle
      | cons b rest2 =>
        have hns : cw + (List.map (fun it => it.weight) (a :: b :: rest2)).sum =
            (cw + a.weight) + (List.map (fun it => it.weight) (b :: rest2)).sum := by
          simp only [List.map_cons, List.sum_cons]
          omega
        rw [hns] at hle
        obtain ⟨it, hmem, heq⟩ := ih (cw + a.weight) (by simp) hle
        refine ⟨it, List.mem_cons_of_mem a hmem, ?_⟩
        simp only [drawWalk]
        rw [if_neg hc]
        exact heq

lemma drawWalk_zero_weight (items : List GachaPoolItem)
    (h : (items.map (fun it => it.weight)).sum = 0) :
    drawWalk 0 items 0 = items.head? := by
  cases items with
  | nil => rfl
  | cons a rest =>
    have ha : a.weight = 0 := by
      simp at h
      omega
    simp [drawWalk, ha]

/-- Concrete pool with a single entry of weight `0`: non-empty but with zero
total weight. -/
def zeroWeightPool : GachaPool :=
  { poolId := 1, costCoins := 10,
    items := [{ gachaPoolId := 1, itemType := ItemKind.coins, itemId := 0,
                quantity := 5, weight := 0 }] }

/-- C3 counterexample: for a non-empty pool whose total weight is zero,
`_perform_single_weighted_draw` does not signal an error — with the only
possible random value `r = uniform(0, 0) = 0` it returns the first entry
(`0 <= 0` succeeds on the first iteration), contradicting the claim that it
does not return a pool entry. -/
theorem claim_C3_counterexample :
    totalWeight zeroWeightPool = 0 ∧
    performSingleWeightedDraw zeroWeightPool 0 =
      some { gachaPoolId := 1, itemType := ItemKind.coins, itemId := 0,
             quantity := 5, weight := 0 } := by
  constructor
  · rfl
  · simp [performSingleWeightedDraw, zeroWeightPool, drawWalk]

/-- C3 (amended): for a pool with zero entries the draw returns no entry;
for a non-empty pool with zero total weight the draw (at the only possible
random value `r = 0`) returns the FIRST entry rather than signalling an
error; for a pool with positive total weight and any admissible random value
`0 ≤ r ≤ totalWeight` it returns one of the pool's entries. -/
theorem claim_C3 (pool : GachaPool) (r : ℚ) :
    (pool.items = [] → performSingleWeightedDraw pool r = none) ∧
    (totalWeight pool = 0 → performSingleWeightedDraw pool 0 = pool.items.head?) ∧
    (0 < totalWeight pool → 0 ≤ r → r ≤ (totalWeight pool : ℚ) →
      ∃ it, it ∈ pool.items ∧ performSingleWeightedDraw pool r = some it) := by
  refine ⟨?_, ?_, ?_⟩
  · intro h
    simp [performSingleWeightedDraw, h, drawWalk]
  · intro h
    exact drawWalk_zero_weight pool.items h
  · intro hpos _ hle
    have hne : pool.items ≠ [] := by
      intro h
      rw [totalWeight, h] at hpos
      simp at hpos
    apply drawWalk_of_le_sum r pool.items 0 hne
    simpa [totalWeight] using hle

/-- Concrete pool with positive total weight, used to witness C3. -/
def posWeightPool : GachaPool :=
  { poolId := 2, costCoins := 10,
    items := [{ gachaPoolId := 2, itemType := ItemKind.rod, itemId := 1,
                quantity := 1, weight := 3 },
              { gachaPoolId := 2, itemType := ItemKind.coins, itemId := 0,
                quantity := 10, weight := 2 }] }

/-- C3 witness: instantiating the amended theorem at a concrete pool of
total weight `5` and random value `r = 4`. -/
theorem claim_C3_witness :
    ∃ it, it ∈ posWeightPool.items ∧
      performSingleWeightedDraw posWeightPool 4 = some it :=
  (claim_C3 posWeightPool 4).2.2 (by decide) (by norm_num)
    (by rw [show totalWeight posWeightPool = 5 from rfl]; norm_num)

/-! ## InventoryStore: bait (stackable) quantity mutations

The `user_bait_inventory` table, restricted to one user, is modelled as an
association list from bait template id to quantity (ℤ, the raw SQLite
integer column). -/

/-- `update_bait_quantity(user_id, bait_id, delta)`: upsert
(`INSERT ... VALUES (u, b, MAX(0, delta)) ON CONFLICT DO UPDATE SET
quantity = MAX(0, quantity + delta)`) followed by
`DELETE ... WHERE quantity <= 0` over all of the user's rows. -/
def updateBaitQuantity (inv : List (ℕ × ℤ)) (baitId : ℕ) (delta : ℤ) :
    List (ℕ × ℤ) :=
  let upserted :=
    if (inv.lookup baitId).isSome then
      inv.map (fun p => if p.1 = baitId then (p.1, max 0 (p.2 + delta)) else p)
    else inv ++ [(baitId, max 0 delta)]
  upserted.filter (fun p => 0 < p.2)

/-- One iteration of the loop inside `batch_update_bait_quantities`:
skip zero deltas; when a row exists `SELECT` its quantity `q` and `UPDATE`
it to `max(0, q + delta)`; otherwise `INSERT` the row only when the delta is
positive.  No zero-quantity cleanup is performed. -/
def batchUpdateBaitStep (acc : List (ℕ × ℤ)) (u : ℕ × ℤ) : List (ℕ × ℤ) :=
  if u.2 = 0 then acc
  else
    match acc.lookup u.1 with
    | some q => acc.map (fun p => if p.1 = u.1 then (p.1, max 0 (q + u.2)) else p)
    | none => if 0 < u.2 then acc ++ [(u.1, u.2)] else acc

/-- `batch_update_bait_quantities(user_id, bait_updates)`: the updates are
applied sequentially inside one transaction. -/
def batchUpdateBaitQuantities (inv : List (ℕ × ℤ))
    (updates : List (ℕ × ℤ)) : List (ℕ × ℤ) :=
  updates.foldl batchUpdateBaitStep inv

/-- C5 counterexample: starting from a single row of quantity `5`,
`batch_update_bait_quantities` with delta `-5` sets the row's quantity to
`0` and RETAINS it (the batch method has no `DELETE ... WHERE quantity <= 0`
step), contradicting the claim that no zero-quantity row is retained after
every stackable mutation. -/
theorem claim_C5_counterexample :
    batchUpdateBaitQuantities [(1, 5)] [(1, -5)] = [(1, 0)] ∧
    (1, (0 : ℤ)) ∈ batchUpdateBaitQuantities [(1, 5)] [(1, -5)] := by
  constructor <;> decide

lemma batchUpdateBaitStep_nonneg (acc : List (ℕ × ℤ)) (u : ℕ × ℤ)
    (h : ∀ p ∈ acc, 0 ≤ p.2) : ∀ p ∈ batchUpdateBaitStep acc u, 0 ≤ p.2 := by
  intro p hp
  unfold batchUpdateBaitStep at hp
  by_cases h0 : u.2 = 0
  · rw [if_pos h0] at hp
    exact h p hp
  · rw [if_neg h0] at hp
    cases hq : acc.lookup u.1 with
    | some q =>
      rw [hq] at hp
      obtain ⟨a, ha, hap⟩ := List.mem_map.mp hp
      by_cases hk : a.1 = u.1
      · rw [if_pos hk] at hap
        rw [← hap]
        exact le_max_left 0 _
      · rw [if_neg hk] at hap
        rw [← hap]
        exact h a ha
    | none =>
      rw [hq] at hp
      by_cases hpos : 0 < u.2
      · rw [if_pos hpos] at hp
        rcases List.mem_append.mp hp with hmem | hmem
        · exact h p hmem
        · simp at hmem
          rw [hmem]
          exact le_of_lt hpos
      · rw [if_neg hpos] at hp
        exact h p hp

lemma batchUpdateBaitQuantities_nonneg (updates : List (ℕ × ℤ)) :
    ∀ inv : List (ℕ × ℤ), (∀ p ∈ inv, 0 ≤ p.2) →
      ∀ p ∈ batchUpdateBaitQuantities inv updates, 0 ≤ p.2 := by
  induction updates with
  | nil => intro inv h; exact h
  | cons u us ih =>
    intro inv h
    exact ih (batchUpdateBaitStep inv u) (batchUpdateBaitStep_nonneg inv u h)

/-- C5 (amended): after `update_bait_quantity` every retained row has a
strictly positive quantity (so quantities are never negative and no
zero-quantity row survives); after `batch_update_bait_quantities` quantities
stay non-negative (given a non-negative starting inventory), but a row whose
quantity reaches `0` is retained with quantity `0` rather than deleted —
only the single-update method performs the zero-row cleanup. -/
theorem claim_C5 (inv : List (ℕ × ℤ)) (baitId : ℕ) (delta : ℤ)
    (updates : List (ℕ × ℤ)) (hinv : ∀ p ∈ inv, 0 ≤ p.2) :
    (∀ p ∈ updateBaitQuantity inv baitId delta, 0 < p.2) ∧
    (∀ p ∈ batchUpdateBaitQuantities inv updates, 0 ≤ p.2) := by
  constructor
  · intro p hp
    unfold updateBaitQuantity at hp
    have := List.of_mem_filter hp
    simpa using this
  · exact batchUpdateBaitQuantities_nonneg updates inv hinv

/-- C5 witness: instantiating the amended theorem at the counterexample
inventory, checking both the strictly-positive conclusion for the single
update and non-negativity for the batch update. -/
theorem claim_C5_witness :
    (∀ p ∈ updateBaitQuantity [(1, 5)] 1 (-5), 0 < p.2) ∧
    (∀ p ∈ batchUpdateBaitQuantities [(1, 5)] [(1, -5)], 0 ≤ p.2) :=
  claim_C5 [(1, 5)] 1 (-5) [(1, -5)] (by decide)

/-! ## InventoryStore: equipment instances and `set_equipment_status` -/

/-- A row of the `user_rods` table. -/
structure RodInstance where
  rodInstanceId : ℕ
  userId : ℕ
  rodId : ℕ
  currentDurability : Option ℕ
  isEquipped : Bool
  refineLevel : ℕ
deriving DecidableEq, Repr

/-- A row of the `user_accessories` table. -/
structure AccessoryInstance where
  accessoryInstanceId : ℕ
  userId : ℕ
  accessoryId : ℕ
  isEquipped : Bool
  refineLevel : ℕ
deriving DecidableEq, Repr

/-- `UPDATE user_rods SET is_equipped = 0 WHERE user_id = ?`. -/
def unequipRodsForUser (uid : ℕ) (rows : List RodInstance) : List RodInstance :=
  rows.map (fun r => if r.userId = uid then { r with isEquipped := false } else r)

/-- `UPDATE user_accessories SET is_equipped = 0 WHERE user_id = ?`. -/
def unequipAccessoriesForUser (uid : ℕ) (rows : List AccessoryInstance) :
    List AccessoryInstance :=
  rows.map (fun a => if a.userId = uid then { a with isEquipped := false } else a)

/-- `UPDATE user_rods SET is_equipped = 1 WHERE rod_instance_id = ? AND
user_id = ?`. -/
def equipRodIfMatch (uid iid : ℕ) (rows : List RodInstance) : List RodInstance :=
  rows.map (fun r =>
    if r.rodInstanceId = iid ∧ r.userId = uid then { r with isEquipped := true } else r)

/-- `UPDATE user_accessories SET is_equipped = 1 WHERE
accessory_instance_id = ? AND user_id = ?`. -/
def equipAccessoryIfMatch (uid iid : ℕ) (rows : List AccessoryInstance) :
    List AccessoryInstance :=
  rows.map (fun a =>
    if a.accessoryInstanceId = iid ∧ a.userId = uid then { a with isEquipped := true } else a)

/-- `set_equipment_status(user_id, rod_instance_id, accessory_instance_id)`:
first ALL of the user's rods and ALL of the user's accessories are reset to
unequipped, then the optionally named rod and accessory instances are
equipped, all in one transaction. -/
def setEquipmentStatus (rods : List RodInstance) (accs : List AccessoryInstance)
    (uid : ℕ) (rodIdOpt accIdOpt : Option ℕ) :
    List RodInstance × List AccessoryInstance :=
  let rods1 := unequipRodsForUser uid rods
  let accs1 := unequipAccessoriesForUser uid accs
  let rods2 := match rodIdOpt with
    | some iid => equipRodIfMatch uid iid rods1
    | none => rods1
  let accs2 := match accIdOpt with
    | some iid => equipAccessoryIfMatch uid iid accs1
    | none => accs1
  (rods2, accs2)

/-- C6 counterexample: user `1` has accessory instance `10` equipped and an
unequipped rod instance `5`.  Equipping the rod
(`set_equipment_status(1, rod_instance_id=5)`) also resets the accessory's
equipped flag to `0`, contradicting the claim that the other equipment
category is left unchanged. -/
theorem claim_C6_counterexample :
    (setEquipmentStatus
        [{ rodInstanceId := 5, userId := 1, rodId := 50,
           currentDurability := none, isEquipped := false, refineLevel := 1 }]
        [{ accessoryInstanceId := 10, userId := 1, accessoryId := 100,
           isEquipped := true, refineLevel := 1 }]
        1 (some 5) none).2 =
      [{ accessoryInstanceId := 10, userId := 1, accessoryId := 100,
         isEquipped := false, refineLevel := 1 }] := by
  decide

/-- C6 (amended): `set_equipment_status` unequips ALL of the calling user's
instances in BOTH equipment categories before equipping the named
instance(s): afterwards one of the user's rods (resp. accessories) is
equipped exactly when it is the named instance of that category — so
equipping a rod alone leaves every accessory of the user unequipped, not as
it was.  Rows belonging to other users are unchanged. -/
theorem claim_C6 (rods : List RodInstance) (accs : List AccessoryInstance)
    (uid : ℕ) (rodIdOpt accIdOpt : Option ℕ) :
    (∀ r ∈ (setEquipmentStatus rods accs uid rodIdOpt accIdOpt).1,
      r.userId = uid → r.isEquipped = decide (rodIdOpt = some r.rodInstanceId)) ∧
    (∀ a ∈ (setEquipmentStatus rods accs uid rodIdOpt accIdOpt).2,
      a.userId = uid → a.isEquipped = decide (accIdOpt = some a.accessoryInstanceId)) ∧
    (∀ r ∈ rods, r.userId ≠ uid →
      r ∈ (setEquipmentStatus rods accs uid rodIdOpt accIdOpt).1) ∧
    (∀ a ∈ accs, a.userId ≠ uid →
      a ∈ (setEquipmentStatus rods accs uid rodIdOpt accIdOpt).2) := by
  refine ⟨?_, ?_, ?_, ?_⟩
  · intro r hr hru
    cases rodIdOpt with
    | none =>
      simp only [setEquipmentStatus, unequipRodsForUser] at hr
      obtain ⟨b, hb, hbr⟩ := List.mem_map.mp hr
      by_cases hbu : b.userId = uid
      · rw [if_pos hbu] at hbr
        rw [← hbr]
        simp
      · rw [if_neg hbu] at hbr
        rw [← hbr] at hru
        exact absurd hru hbu
    | some iid =>
      simp only [setEquipmentStatus, equipRodIfMatch, unequipRodsForUser,
        List.map_map] at hr
      obtain ⟨b, hb, hbr⟩ := List.mem_map.mp hr
      simp only [Function.comp] at hbr
      by_cases hbu : b.userId = uid
      · rw [if_pos hbu] at hbr
        by_cases hid : b.rodInstanceId = iid
        · rw [if_pos (by exact ⟨hid, hbu⟩)] at hbr
          rw [← hbr]
          simp [hid]
        · rw [if_neg (by simp [hid])] at hbr
          rw [← hbr]
          simp
          omega
      · rw [if_neg hbu] at hbr
        by_cases hm : b.rodInstanceId = iid ∧ b.userId = uid
        · exact absurd hm.2 hbu
        · rw [if_neg hm] at hbr
          rw [← hbr] at hru
          exact absurd hru hbu
  · intro a ha hau
    cases accIdOpt with
    | none =>
      simp only [setEquipmentStatus, unequipAccessoriesForUser] at ha
      obtain ⟨b, hb, hba⟩ := List.mem_map.mp ha
      by_cases hbu : b.userId = uid
      · rw [if_pos hbu] at hba
        rw [← hba]
        simp
      · rw [if_neg hbu] at hba
        rw [← hba] at hau
        exact absurd hau hbu
    | some iid =>
      simp only [setEquipmentStatus, equipAccessoryIfMatch,
        unequipAccessoriesForUser, List.map_map] at ha
      obtain ⟨b, hb, hba⟩ := List.mem_map.mp ha
      simp only [Function.comp] at hba
      by_cases hbu : b.userId = uid
      · rw [if_pos hbu] at hba
        by_cases hid : b.accessoryInstanceId = iid
        · rw [if_pos (by exact ⟨hid, hbu⟩)] at hba
          rw [← hba]
          simp [hid]
        · rw [if_neg (by simp [hid])] at hba
          rw [← hba]
          simp
          omega
      · rw [if_neg hbu] at hba
        by_cases hm : b.accessoryInstanceId = iid ∧ b.userId = uid
        · exact absurd hm.2 hbu
        · rw [if_neg hm] at hba
          rw [← hba] at hau
          exact absurd hau hbu
  · intro r hr hru
    have h1 : (if r.userId = uid then { r with isEquipped := false } else r) = r :=
      if_neg hru
    cases rodIdOpt with
    | none =>
      simp only [setEquipmentStatus, unequipRodsForUser]
      exact List.mem_map.mpr ⟨r, hr, h1⟩
    | some iid =>
      simp only [setEquipmentStatus, equipRodIfMatch, unequipRodsForUser,
        List.map_map]
      have := List.mem_map_of_mem
        ((fun b => if b.rodInstanceId = iid ∧ b.userId = uid
            then { b with isEquipped := true } else b) ∘
          (fun b => if b.userId = uid then { b with isEquipped := false } else b)) hr
      simp only [Function.comp, h1] at this
      rw [if_neg (by intro hm; exact hru hm.2)] at this
      exact this
  · intro a ha hau
    have h1 : (if a.userId = uid then { a with isEquipped := false } else a) = a :=
      if_neg hau
    cases accIdOpt with
    | none =>
      simp only [setEquipmentStatus, unequipAccessoriesForUser]
      exact List.mem_map.mpr ⟨a, ha, h1⟩
    | some iid =>
      simp only [setEquipmentStatus, equipAccessoryIfMatch,
        unequipAccessoriesForUser, List.map_map]
      have := List.mem_map_of_mem
        ((fun b => if b.accessoryInstanceId = iid ∧ b.userId = uid
            then { b with isEquipped := true } else b) ∘
          (fun b => if b.userId = uid then { b with isEquipped := false } else b)) ha
      simp only [Function.comp, h1] at this
      rw [if_neg (by intro hm; exact hau hm.2)] at this
      exact this

/-- C6 witness: instantiating the amended theorem on the counterexample
database — after equipping rod `5` for user `1`, the accessory conjunct
reports every accessory of user `1` unequipped. -/
theorem claim_C6_witness :
    ∀ a ∈ (setEquipmentStatus
        [{ rodInstanceId := 5, userId := 1, rodId := 50,
           currentDurability := none, isEquipped := false, refineLevel := 1 }]
        [{ accessoryInstanceId := 10, userId := 1, accessoryId := 100,
           isEquipped := true, refineLevel := 1 }]
        1 (some 5) none).2,
      a.userId = 1 → a.isEquipped = decide ((none : Option ℕ) = some a.accessoryInstanceId) :=
  (claim_C6
    [{ rodInstanceId := 5, userId := 1, rodId := 50,
       currentDurability := none, isEquipped := false, refineLevel := 1 }]
    [{ accessoryInstanceId := 10, userId := 1, accessoryId := 100,
       isEquipped := true, refineLevel := 1 }]
    1 (some 5) none).2.1

/-! ## InventoryStore: `sell_fish_keep_one`

The `fish` template table is modelled as an association list from fish id to
`base_value`; the user's `user_fish_inventory` rows as an association list
from fish id to quantity. -/

/-- `sell_fish_keep_one(user_id)`: select (via a JOIN with the `fish` table)
all rows with `quantity > 1` together with their base values; if none,
return `0` unchanged; otherwise total up `(quantity - 1) * base_value` and
`UPDATE ... SET quantity = 1 WHERE quantity > 1`, in one transaction. -/
def sellFishKeepOne (fishCatalog : List (ℕ × ℕ)) (inv : List (ℕ × ℕ)) :
    ℕ × List (ℕ × ℕ) :=
  let itemsToSell := inv.filterMap (fun p =>
    if 1 < p.2 then (fishCatalog.lookup p.1).map (fun v => (p.1, p.2, v)) else none)
  if itemsToSell = [] then (0, inv)
  else
    let soldValue := itemsToSell.foldl (fun acc t => acc + (t.2.1 - 1) * t.2.2) 0
    (soldValue, inv.map (fun p => if 1 < p.2 then (p.1, 1) else p))

lemma foldl_add_eq_sum {α : Type} (g : α → ℕ) :
    ∀ (xs : List α) (n : ℕ), xs.foldl (fun acc x => acc + g x) n = n + (xs.map g).sum := by
  intro xs
  induction xs with
  | nil => intro n; simp
  | cons x rest ih =>
    intro n
    simp only [List.foldl_cons, List.map_cons, List.sum_cons]
    rw [ih (n + g x)]
    omega

lemma itemsToSell_eq (fishCatalog : List (ℕ × ℕ)) :
    ∀ inv : List (ℕ × ℕ), (∀ p ∈ inv, (fishCatalog.lookup p.1).isSome) →
      inv.filterMap (fun p =>
          if 1 < p.2 then (fishCatalog.lookup p.1).map (fun v => (p.1, p.2, v)) else none) =
        (inv.filter (fun p => 1 < p.2)).map
          (fun p => (p.1, p.2, (fishCatalog.lookup p.1).getD 0)) := by
  intro inv
  induction inv with
  | nil => intro _; rfl
  | cons p rest ih =>
    intro h
    have hp := h p (List.mem_cons_self p rest)
    obtain ⟨v, hv⟩ := Option.isSome_iff_exists.mp hp
    have hrest := ih (fun q hq => h q (List.mem_cons_of_mem p hq))
    by_cases hq : 1 < p.2
    · simp [List.filterMap_cons, List.filter_cons, hq, hv, hrest]
    · simp [List.filterMap_cons, List.filter_cons, hq, hrest]

/-- C8: `sell_fish_keep_one` returns the sum, over the user's stackable fish
rows with quantity `> 1`, of `(quantity - 1) *` the template's base value,
clamps exactly those rows to quantity `1`, and leaves rows with quantity
`≤ 1` untouched (the transaction making the whole update atomic is modelled
by the single pure state transition).  The hypothesis states that every
inventory row references an existing fish template (guaranteed by the
`FOREIGN KEY` pragma in the repository). -/
theorem claim_C8 (fishCatalog : List (ℕ × ℕ)) (inv : List (ℕ × ℕ))
    (h : ∀ p ∈ inv, (fishCatalog.lookup p.1).isSome) :
    (sellFishKeepOne fishCatalog inv).1 =
      ((inv.filter (fun p => 1 < p.2)).map
        (fun p => (p.2 - 1) * (fishCatalog.lookup p.1).getD 0)).sum ∧
    (sellFishKeepOne fishCatalog inv).2 =
      inv.map (fun p => if 1 < p.2 then (p.1, 1) else p) := by
  have hsell := itemsToSell_eq fishCatalog inv h
  by_cases hempty : (inv.filter (fun p => 1 < p.2)) = []
  · have hnil : inv.filterMap (fun p =>
        if 1 < p.2 then (fishCatalog.lookup p.1).map (fun v => (p.1, p.2, v)) else none) = [] := by
      rw [hsell, hempty]
      rfl
    have hid : inv.map (fun p => if 1 < p.2 then (p.1, 1) else p) = inv := by
      have : ∀ p ∈ inv, (if 1 < p.2 then (p.1, 1) else p) = p := by
        intro p hp
        have : ¬ (1 < p.2) := by
          intro hgt
          have : p ∈ inv.filter (fun p => 1 < p.2) :=
            List.mem_filter.mpr ⟨hp, by simpa using hgt⟩
          rw [hempty] at this
          exact absurd this (List.not_mem_nil p)
        rw [if_neg this]
      calc inv.map (fun p => if 1 < p.2 then (p.1, 1) else p)
          = inv.map id := List.map_congr_left this
        _ = inv := List.map_id inv
    constructor
    · simp only [sellFishKeepOne, hnil]
      rw [hempty]
      rfl
    · simp only [sellFishKeepOne, hnil]
      rw [hid]
      rfl
  · have hne : inv.filterMap (fun p =>
        if 1 < p.2 then (fishCatalog.lookup p.1).map (fun v => (p.1, p.2, v)) else none) ≠ [] := by
      rw [hsell]
      simpa using hempty
    constructor
    · simp only [sellFishKeepOne, hne, if_neg, reduceIte]
      rw [hsell, foldl_add_eq_sum]
      rw [List.map_map]
      rw [Nat.zero_add]
      congr 1
    · simp only [sellFishKeepOne, hne, if_neg, reduceIte]

/-- C8 witness: on the inventory fishA (id 1): quantity 5 at base value 10,
fishB (id 2): quantity 1 at base value 20, the sale totals `40`, fishA is
clamped to quantity `1` and fishB is untouched. -/
theorem claim_C8_witness :
    (sellFishKeepOne [(1, 10), (2, 20)] [(1, 5), (2, 1)]).1 = 40 ∧
    (sellFishKeepOne [(1, 10), (2, 20)] [(1, 5), (2, 1)]).2 = [(1, 1), (2, 1)] := by
  have h := claim_C8 [(1, 10), (2, 20)] [(1, 5), (2, 1)] (by decide)
  refine ⟨?_, ?_⟩
  · rw [h.1]; decide
  · rw [h.2]; decide

/-! ## InventoryStore: batch equipment-instance insertion -/

/-- The `user_rods` table together with its auto-increment counter (the next
`rod_instance_id` SQLite will assign). -/
structure RodStore where
  rows : List RodInstance
  nextId : ℕ
deriving DecidableEq, Repr

/-- The `user_accessories` table together with its auto-increment counter. -/
structure AccessoryStore where
  rows : List AccessoryInstance
  nextId : ℕ
deriving DecidableEq, Repr

/-- `batch_add_rod_instances(user_id, rod_data_list)` (happy path): an empty
input returns `[]` immediately without touching the database; otherwise all
rows are inserted in one statement (`is_equipped = 0`, `refine_level = 1`)
and the assigned id range `first_id .. last_id` is returned. -/
def batchAddRodInstances (s : RodStore) (uid : ℕ)
    (rodDataList : List (ℕ × Option ℕ)) : RodStore × List ℕ :=
  if rodDataList = [] then (s, [])
  else
    let n := rodDataList.length
    let newRows := rodDataList.enum.map (fun pr =>
      { rodInstanceId := s.nextId + pr.1, userId := uid, rodId := pr.2.1,
        currentDurability := pr.2.2, isEquipped := false,
        refineLevel := 1 : RodInstance })
    ({ rows := s.rows ++ newRows, nextId := s.nextId + n },
      (List.range n).map (fun i => s.nextId + i))

/-- `batch_add_accessory_instances(user_id, accessory_ids)` (happy path):
an empty input returns `[]` immediately without touching the database;
otherwise all rows are inserted in one statement and the assigned id range
is returned. -/
def batchAddAccessoryInstances (s : AccessoryStore) (uid : ℕ)
    (accessoryIds : List ℕ) : AccessoryStore × List ℕ :=
  if accessoryIds = [] then (s, [])
  else
    let n := accessoryIds.length
    let newRows := accessoryIds.enum.map (fun pr =>
      { accessoryInstanceId := s.nextId + pr.1, userId := uid,
        accessoryId := pr.2, isEquipped := false,
        refineLevel := 1 : AccessoryInstance })
    ({ rows := s.rows ++ newRows, nextId := s.nextId + n },
      (List.range n).map (fun i => s.nextId + i))

/-- C10: calling `batch_add_rod_instances`, `batch_add_accessory_instances`
or `batch_update_bait_quantities` with an empty input list is a no-op: the
store is unchanged and the returned id list (where there is one) is empty. -/
theorem claim_C10 (rs : RodStore) (acs : AccessoryStore)
    (inv : List (ℕ × ℤ)) (uid : ℕ) :
    batchAddRodInstances rs uid [] = (rs, []) ∧
    batchAddAccessoryInstances acs uid [] = (acs, []) ∧
    batchUpdateBaitQuantities inv [] = inv := by
  refine ⟨?_, ?_, ?_⟩
  · rw [batchAddRodInstances, if_pos rfl]
  · rw [batchAddAccessoryInstances, if_pos rfl]
  · rfl

/-! ## Item template catalog and audit records -/

/-- A rod template (`get_rod_by_id`): display name, rarity and durability
(`None` means unlimited). -/
structure RodTemplate where
  name : String
  rarity : ℕ
  durability : Option ℕ
deriving DecidableEq, Repr

/-- An accessory template (`get_accessory_by_id`). -/
structure AccessoryTemplate where
  name : String
  rarity : ℕ
deriving DecidableEq, Repr

/-- A bait template (`get_bait_by_id`). -/
structure BaitTemplate where
  name : String
  rarity : ℕ
deriving DecidableEq, Repr

/-- A title template (`get_title_by_id`). -/
structure TitleTemplate where
  name : String
deriving DecidableEq, Repr

/-- The external item-template repository, modelled as association lists
(`None` lookup result = template not found). -/
structure Catalog where
  rods : List (ℕ × RodTemplate)
  accessories : List (ℕ × AccessoryTemplate)
  baits : List (ℕ × BaitTemplate)
  titles : List (ℕ × TitleTemplate)
deriving DecidableEq, Repr

def lookupRod (cat : Catalog) (i : ℕ) : Option RodTemplate := cat.rods.lookup i

def lookupAccessory (cat : Catalog) (i : ℕ) : Option AccessoryTemplate :=
  cat.accessories.lookup i

def lookupBait (cat : Catalog) (i : ℕ) : Option BaitTemplate := cat.baits.lookup i

def lookupTitle (cat : Catalog) (i : ℕ) : Option TitleTemplate := cat.titles.lookup i

/-- An append-only audit row (`GachaRecord` in the domain model; the DB
auto-increment `record_id`, always passed as `0` by the service, and the
`get_now()` timestamp are not modelled). -/
structure GachaRecord where
  userId : ℕ
  gachaPoolId : ℕ
  itemType : ItemKind
  itemId : ℕ
  itemName : String
  quantity : ℕ
  rarity : ℕ
deriving DecidableEq, Repr

/-- Helper mirroring `_create_log_record`. -/
def mkGachaRecord (uid poolId : ℕ) (kind : ItemKind) (iid : ℕ) (nm : String)
    (qty rarity : ℕ) : GachaRecord :=
  { userId := uid, gachaPoolId := poolId, itemType := kind, itemId := iid,
    itemName := nm, quantity := qty, rarity := rarity }

/-- A user-facing reward descriptor, one per aggregated group
(the dictionaries appended to `granted_rewards`). -/
inductive Reward
  | rod (id : ℕ) (nm : String) (rarity : ℕ)
  | accessory (id : ℕ) (nm : String) (rarity : ℕ)
  | bait (id : ℕ) (nm : String) (rarity : ℕ) (qty : ℕ)
  | coins (qty : ℕ)
  | title (id : ℕ) (nm : String)
deriving DecidableEq, Repr

/-- Observable store events of one `perform_draw` call, used to state the
temporal ordering of the debit relative to draw computation and reward
persistence. -/
inductive Event
  | draw
  | debit (amount : ℕ)
  | persist (kind : ItemKind)
  | credit (amount : ℕ)
  | logAppend
deriving DecidableEq, Repr

/-! ## RewardAggregator (the in-memory aggregation phase of
`_grant_rewards_batch`) -/

/-- One `aggregated_rewards["baits"][item.item_id] += item.quantity` step of
the `defaultdict(int)` aggregation: update the existing total or create the
entry (insertion order = first occurrence, as for a Python dict). -/
def addBaitQty (acc : List (ℕ × ℕ)) (bid qty : ℕ) : List (ℕ × ℕ) :=
  if (acc.lookup bid).isSome then
    acc.map (fun p => if p.1 = bid then (p.1, p.2 + qty) else p)
  else acc ++ [(bid, qty)]

/-- The bait aggregation `defaultdict(int)` over the draw results. -/
def aggregateBaits (dr : List GachaPoolItem) : List (ℕ × ℕ) :=
  dr.foldl (fun acc it =>
    if it.itemType == ItemKind.bait then addBaitQty acc it.itemId it.quantity else acc) []

/-- `aggregated_rewards["coins"]`: the summed coin quantity. -/
def aggregateCoins (dr : List GachaPoolItem) : ℕ :=
  ((dr.filter (fun it => it.itemType == ItemKind.coins)).map (fun it => it.quantity)).sum

/-- First-occurrence deduplication, modelling the `set()` of title ids
(Python set iteration order is unspecified; any fixed order is a sound model
because no property here depends on it). -/
def dedupFirst : List ℕ → List ℕ
  | [] => []
  | x :: xs => x :: (dedupFirst xs).filter (fun y => y ≠ x)

/-- `aggregated_rewards["titles"]`: the set of drawn title ids. -/
def aggregateTitles (dr : List GachaPoolItem) : List ℕ :=
  dedupFirst ((dr.filter (fun it => it.itemType == ItemKind.titles)).map (fun it => it.itemId))

/-! ## Audit-log rows and reward descriptors produced by
`_grant_rewards_batch` -/

/-- One `GachaRecord` per DRAWN rod with a known template, carrying that
draw's own quantity payload. -/
def rodLogRecords (cat : Catalog) (uid : ℕ) (rods : List GachaPoolItem) :
    List GachaRecord :=
  rods.filterMap (fun it => (lookupRod cat it.itemId).map (fun t =>
    mkGachaRecord uid it.gachaPoolId ItemKind.rod it.itemId t.name it.quantity t.rarity))

/-- One `GachaRecord` per DRAWN accessory with a known template. -/
def accessoryLogRecords (cat : Catalog) (uid : ℕ) (accessories : List GachaPoolItem) :
    List GachaRecord :=
  accessories.filterMap (fun it => (lookupAccessory cat it.itemId).map (fun t =>
    mkGachaRecord uid it.gachaPoolId ItemKind.accessory it.itemId t.name it.quantity t.rarity))

/-- One `GachaRecord` per AGGREGATED bait template (known template, positive
total), carrying the SUMMED quantity; the `virtual_item` used for logging
has `gacha_pool_id = 0`. -/
def baitLogRecords (cat : Catalog) (uid : ℕ) (baits : List (ℕ × ℕ)) :
    List GachaRecord :=
  baits.filterMap (fun p =>
    match lookupBait cat p.1 with
    | some t =>
      if 0 < p.2 then
        some (mkGachaRecord uid 0 ItemKind.bait p.1 t.name p.2 t.rarity)
      else none
    | none => none)

/-- The display label of a coin grant, `f"{coins} 金币"`. -/
def coinsLabel (n : ℕ) : String := toString n ++ " 金币"

/-- At most one `GachaRecord` for the summed coin grant. -/
def coinLogRecords (uid : ℕ) (total : ℕ) : List GachaRecord :=
  if 0 < total then [mkGachaRecord uid 0 ItemKind.coins 0 (coinsLabel total) total 1]
  else []

/-- One `GachaRecord` per UNIQUE granted title with a known template. -/
def titleLogRecords (cat : Catalog) (uid : ℕ) (titles : List ℕ) : List GachaRecord :=
  titles.filterMap (fun tid => (lookupTitle cat tid).map (fun t =>
    mkGachaRecord uid 0 ItemKind.titles tid t.name 1 0))

/-- All audit rows appended by `_grant_rewards_batch` for one batch of draw
results, in the order the source builds `log_records`. -/
def gachaLogRecords (cat : Catalog) (uid : ℕ) (dr : List GachaPoolItem) :
    List GachaRecord :=
  rodLogRecords cat uid (dr.filter (fun it => it.itemType == ItemKind.rod)) ++
  accessoryLogRecords cat uid (dr.filter (fun it => it.itemType == ItemKind.accessory)) ++
  baitLogRecords cat uid (aggregateBaits dr) ++
  coinLogRecords uid (aggregateCoins dr) ++
  titleLogRecords cat uid (aggregateTitles dr)

def rodRewards (cat : Catalog) (rods : List GachaPoolItem) : List Reward :=
  rods.filterMap (fun it => (lookupRod cat it.itemId).map (fun t =>
    Reward.rod it.itemId t.name t.rarity))

def accessoryRewards (cat : Catalog) (accessories : List GachaPoolItem) : List Reward :=
  accessories.filterMap (fun it => (lookupAccessory cat it.itemId).map (fun t =>
    Reward.accessory it.itemId t.name t.rarity))

def baitRewards (cat : Catalog) (baits : List (ℕ × ℕ)) : List Reward :=
  baits.filterMap (fun p =>
    match lookupBait cat p.1 with
    | some t => if 0 < p.2 then some (Reward.bait p.1 t.name t.rarity p.2) else none
    | none => none)

def titleRewards (cat : Catalog) (titles : List ℕ) : List Reward :=
  titles.filterMap (fun tid => (lookupTitle cat tid).map (fun t =>
    Reward.title tid t.name))

/-! ## GachaOrchestrator state and `_grant_rewards_batch` / `perform_draw` -/

/-- The persistent state touched by one user's draw request: the user's coin
balance (`user.coins`), the equipment and bait inventories, the set of
granted titles (the achievement ledger, modelled from the spec interface
`AchievementLedger.grantTitle` — its repository is an external
collaborator), and the append-only audit log. -/
structure GState where
  coins : ℤ
  rodStore : RodStore
  accStore : AccessoryStore
  baitInv : List (ℕ × ℤ)
  titles : List ℕ
  log : List GachaRecord
deriving DecidableEq, Repr

/-- The ordered store events emitted by the persistence phase of
`_grant_rewards_batch`: one batch-insert / batch-update / balance-credit per
non-empty reward kind, one title grant per unique known title, and one audit
append per log record. -/
def grantEvents (rodInsert accInsert baitUpdate : Bool) (coinsTotal : ℕ)
    (titleGrants logCount : ℕ) : List Event :=
  (if rodInsert then [Event.persist ItemKind.rod] else []) ++
  (if accInsert then [Event.persist ItemKind.accessory] else []) ++
  (if baitUpdate then [Event.persist ItemKind.bait] else []) ++
  (if 0 < coinsTotal then [Event.credit coinsTotal] else []) ++
  List.replicate titleGrants (Event.persist ItemKind.titles) ++
  List.replicate logCount Event.logAppend

/-- `_grant_rewards_batch(user_id, draw_results)`: aggregate in memory, then
persist per reward kind (rods and accessories by one batch insert each when
non-empty, baits by one `batch_update_bait_quantities` call when the
aggregation dictionary is non-empty, coins by one additive balance update
when positive, titles one grant per unique known title), then append one
audit row per `log_records` entry.  Returns the new state, the user-facing
reward descriptors and the ordered store events. -/
def grantRewardsBatch (cat : Catalog) (uid : ℕ) (dr : List GachaPoolItem)
    (st : GState) : GState × List Reward × List Event :=
  let rods := dr.filter (fun it => it.itemType == ItemKind.rod)
  let accessories := dr.filter (fun it => it.itemType == ItemKind.accessory)
  let baits := aggregateBaits dr
  let coinsTotal := aggregateCoins dr
  let titles := aggregateTitles dr
  let rodDataList := rods.filterMap (fun it =>
    (lookupRod cat it.itemId).map (fun t => (it.itemId, t.durability)))
  let rodStore1 := if rodDataList = [] then st.rodStore
    else (batchAddRodInstances st.rodStore uid rodDataList).1
  let accessoryIds := accessories.filterMap (fun it =>
    (lookupAccessory cat it.itemId).map (fun _ => it.itemId))
  let accStore1 := if accessoryIds = [] then st.accStore
    else (batchAddAccessoryInstances st.accStore uid accessoryIds).1
  let baitInv1 := if baits = [] then st.baitInv
    else batchUpdateBaitQuantities st.baitInv (baits.map (fun p => (p.1, (p.2 : ℤ))))
  let coins1 := if 0 < coinsTotal then st.coins + coinsTotal else st.coins
  let grantedTitles := titles.filter (fun tid => (lookupTitle cat tid).isSome)
  let rewards := rodRewards cat rods ++ accessoryRewards cat accessories ++
    baitRewards cat baits ++
    (if 0 < coinsTotal then [Reward.coins coinsTotal] else []) ++
    titleRewards cat titles
  let events := grantEvents (!rodDataList.isEmpty) (!accessoryIds.isEmpty)
    (!baits.isEmpty) coinsTotal grantedTitles.length
    (gachaLogRecords cat uid dr).length
  (⟨coins1, rodStore1, accStore1, baitInv1, st.titles ++ grantedTitles,
     st.log ++ gachaLogRecords cat uid dr⟩, rewards, events)

/-- Modelled from the spec: the user aggregate (an external collaborator of
this core; its domain model is not part of the inventory/gacha sources)
exposes `can_afford`, specified as `user.balance ≥ totalCost`. -/
def canAfford (coins : ℤ) (cost : ℕ) : Bool := decide ((cost : ℤ) ≤ coins)

/-- The failure messages `perform_draw` can return. -/
inductive DrawFailure
  | userNotFound
  | poolInvalid
  | insufficientFunds (required : ℕ)
  | drawEmpty
deriving DecidableEq, Repr

/-- The result dictionary of `perform_draw`. -/
inductive DrawOutcome
  | failure (f : DrawFailure)
  | success (rewards : List Reward)
deriving DecidableEq, Repr

/-- `perform_draw(user_id, pool_id, num_draws)`: validate user, pool and
affordability; run `num_draws` weighted draws (one random value per
iteration, so `num_draws = rands.length`), collecting the non-`None`
results; fail if no result; deduct `total_cost` and persist the balance;
then grant the rewards via `_grant_rewards_batch`.  Returns the outcome, the
final state and the ordered event trace. -/
def performDraw (cat : Catalog) (userExists : Bool) (poolOpt : Option GachaPool)
    (uid : ℕ) (rands : List ℚ) (st : GState) :
    DrawOutcome × GState × List Event :=
  if ¬ userExists then (DrawOutcome.failure DrawFailure.userNotFound, st, [])
  else
    match poolOpt with
    | none => (DrawOutcome.failure DrawFailure.poolInvalid, st, [])
    | some pool =>
      if pool.items = [] then (DrawOutcome.failure DrawFailure.poolInvalid, st, [])
      else
        let totalCost := pool.costCoins * rands.length
        if ¬ canAfford st.coins totalCost then
          (DrawOutcome.failure (DrawFailure.insufficientFunds totalCost), st, [])
        else
          let drawEvents := rands.map (fun _ => Event.draw)
          let drawResults := rands.filterMap (performSingleWeightedDraw pool)
          if drawResults = [] then
            (DrawOutcome.failure DrawFailure.drawEmpty, st, drawEvents)
          else
            let st1 := { st with coins := st.coins - totalCost }
            let res := grantRewardsBatch cat uid drawResults st1
            (DrawOutcome.success res.2.1, res.1,
              drawEvents ++ Event.debit totalCost :: res.2.2)

/-- C7: when the user's balance is below `pool.cost_coins * num_draws` (and
the earlier validations pass: user exists, pool non-empty), `perform_draw`
fails with the insufficient-funds message naming the required total, the
state is completely unchanged (balance, inventories, audit log) and no store
event is emitted. -/
theorem claim_C7 (cat : Catalog) (pool : GachaPool) (uid : ℕ) (rands : List ℚ)
    (st : GState) (hpool : pool.items ≠ [])
    (hfunds : st.coins < ((pool.costCoins * rands.length : ℕ) : ℤ)) :
    performDraw cat true (some pool) uid rands st =
      (DrawOutcome.failure
        (DrawFailure.insufficientFunds (pool.costCoins * rands.length)), st, []) := by
  have hca : canAfford st.coins (pool.costCoins * rands.length) = false := by
    simp only [canAfford, decide_eq_false_iff_not]
    exact not_le.mpr hfunds
  simp [performDraw, hpool, hca]

/-- Concrete insufficient-funds scenario: balance 500, pool cost 100 per
draw, 10 draws requested. -/
def c7pool : GachaPool :=
  { poolId := 4, costCoins := 100,
    items := [{ gachaPoolId := 4, itemType := ItemKind.coins, itemId := 0,
                quantity := 10, weight := 1 }] }

def c7st : GState := ⟨500, ⟨[], 1⟩, ⟨[], 1⟩, [], [], []⟩

/-- C7 witness: balance 500, cost 100, 10 draws → `InsufficientFunds(1000)`,
state untouched, zero events (hence zero audit records). -/
theorem claim_C7_witness :
    performDraw ⟨[], [], [], []⟩ true (some c7pool) 9 (List.replicate 10 0) c7st =
      (DrawOutcome.failure (DrawFailure.insufficientFunds 1000), c7st, []) :=
  claim_C7 ⟨[], [], [], []⟩ c7pool 9 (List.replicate 10 0) c7st
    (by decide) (by decide)

lemma grantEvents_no_draw_debit (a b c : Bool) (ct tg lc : ℕ) :
    ∀ e ∈ grantEvents a b c ct tg lc,
      e ≠ Event.draw ∧ ∀ amt, e ≠ Event.debit amt := by
  intro e he
  simp only [grantEvents, List.mem_append, List.mem_replicate] at he
  have hz : e = Event.persist ItemKind.rod ∨ e = Event.persist ItemKind.accessory ∨
      e = Event.persist ItemKind.bait ∨ e = Event.credit ct ∨
      e = Event.persist ItemKind.titles ∨ e = Event.logAppend := by
    rcases he with ((((he | he) | he) | he) | he) | he
    · left; revert he; cases a <;> simp
    · right; left; revert he; cases b <;> simp
    · right; right; left; revert he; cases c <;> simp
    · right; right; right; left; revert he
      by_cases h : 0 < ct <;> simp [h]
    · right; right; right; right; left; exact he.2
    · right; right; right; right; right; exact he.2
  rcases hz with rfl | rfl | rfl | rfl | rfl | rfl <;>
    exact ⟨by simp, fun amt => by simp⟩

lemma grantRewardsBatch_events (cat : Catalog) (uid : ℕ) (dr : List GachaPoolItem)
    (st : GState) : ∀ e ∈ (grantRewardsBatch cat uid dr st).2.2,
      e ≠ Event.draw ∧ ∀ amt, e ≠ Event.debit amt := by
  intro e he
  simp only [grantRewardsBatch] at he
  exact grantEvents_no_draw_debit _ _ _ _ _ _ e he

/-- Concrete scenario for the C2 ordering counterexample: a coins-only pool
of cost 1, one draw, ample balance. -/
def c2pool : GachaPool :=
  { poolId := 3, costCoins := 1,
    items := [{ gachaPoolId := 3, itemType := ItemKind.coins, itemId := 0,
                quantity := 10, weight := 1 }] }

def c2st : GState := ⟨100, ⟨[], 1⟩, ⟨[], 1⟩, [], [], []⟩

/-- C2 counterexample: on a validated single-draw request the event trace of
`perform_draw` BEGINS with the draw computation and the debit only comes
after it — the source runs its draw loop (step 1) before deducting the cost
(step 2) — contradicting the claim that the debit is applied before any draw
outcome is computed. -/
theorem claim_C2_counterexample :
    (performDraw ⟨[], [], [], []⟩ true (some c2pool) 9 [0] c2st).2.2 =
      [Event.draw, Event.debit 1, Event.credit 10, Event.logAppend] ∧
    ((performDraw ⟨[], [], [], []⟩ true (some c2pool) 9 [0] c2st).2.2).head? =
      some Event.draw := by
  constructor <;> decide

/-- C2 (amended): for every request that passes validation and whose draws
yield at least one outcome, the trace of `perform_draw` consists of ALL the
draw computations first, THEN the single persisted debit of
`total_cost = cost_coins * num_draws`, then only reward-persistence events
(no further draw and no further debit) — i.e. the debit happens after the
draw outcomes are computed but still before any reward is persisted. -/
theorem claim_C2 (cat : Catalog) (pool : GachaPool) (uid : ℕ) (rands : List ℚ)
    (st : GState) (hpool : pool.items ≠ [])
    (hafford : canAfford st.coins (pool.costCoins * rands.length) = true)
    (hres : rands.filterMap (performSingleWeightedDraw pool) ≠ []) :
    ∃ gs, (performDraw cat true (some pool) uid rands st).2.2 =
        rands.map (fun _ => Event.draw) ++
          Event.debit (pool.costCoins * rands.length) :: gs ∧
      ∀ e ∈ gs, e ≠ Event.draw ∧ ∀ amt, e ≠ Event.debit amt := by
  refine ⟨(grantRewardsBatch cat uid (rands.filterMap (performSingleWeightedDraw pool))
      { st with coins := st.coins - (pool.costCoins * rands.length) }).2.2, ?_, ?_⟩
  · simp [performDraw, hpool, hafford, hres]
  · exact grantRewardsBatch_events cat uid _ _

/-- C2 witness: instantiating the amended theorem on the concrete
counterexample scenario (coins-only pool, one draw). -/
theorem claim_C2_witness :
    ∃ gs, (performDraw ⟨[], [], [], []⟩ true (some c2pool) 9 [0] c2st).2.2 =
        ([0] : List ℚ).map (fun _ => Event.draw) ++
          Event.debit (c2pool.costCoins * ([0] : List ℚ).length) :: gs ∧
      ∀ e ∈ gs, e ≠ Event.draw ∧ ∀ amt, e ≠ Event.debit amt :=
  claim_C2 ⟨[], [], [], []⟩ c2pool 9 [0] c2st (by decide) (by decide) (by decide)

lemma length_filterMap_map {α β γ : Type} (F : α → Option β) (G : α → β → γ) :
    ∀ xs : List α, (xs.filterMap (fun a => (F a).map (G a))).length =
      (xs.filter (fun a => (F a).isSome)).length := by
  intro xs
  induction xs with
  | nil => rfl
  | cons a rest ih =>
    cases hF : F a with
    | none => simp [List.filterMap_cons, List.filter_cons, hF, ih]
    | some b => simp [List.filterMap_cons, List.filter_cons, hF, ih]

lemma length_baitLogRecords (cat : Catalog) (uid : ℕ) (baits : List (ℕ × ℕ)) :
    (baitLogRecords cat uid baits).length =
      (baits.filter (fun p => (lookupBait cat p.1).isSome && decide (0 < p.2))).length := by
  induction baits with
  | nil => rfl
  | cons p rest ih =>
    simp only [baitLogRecords] at ih ⊢
    cases hb : lookupBait cat p.1 with
    | none => simp [List.filterMap_cons, List.filter_cons, hb, ih]
    | some t =>
      by_cases hq : 0 < p.2 <;>
        simp [List.filterMap_cons, List.filter_cons, hb, hq, ih]

lemma rodLogRecords_itemType (cat : Catalog) (uid : ℕ) (rods : List GachaPoolItem) :
    ∀ rec ∈ rodLogRecords cat uid rods, rec.itemType = ItemKind.rod := by
  intro rec hrec
  simp only [rodLogRecords] at hrec
  obtain ⟨it, _, hmap⟩ := List.mem_filterMap.mp hrec
  obtain ⟨t, _, hrec2⟩ := Option.map_eq_some'.mp hmap
  rw [← hrec2]
  rfl

lemma accessoryLogRecords_itemType (cat : Catalog) (uid : ℕ)
    (accessories : List GachaPoolItem) :
    ∀ rec ∈ accessoryLogRecords cat uid accessories,
      rec.itemType = ItemKind.accessory := by
  intro rec hrec
  simp only [accessoryLogRecords] at hrec
  obtain ⟨it, _, hmap⟩ := List.mem_filterMap.mp hrec
  obtain ⟨t, _, hrec2⟩ := Option.map_eq_some'.mp hmap
  rw [← hrec2]
  rfl

lemma baitLogRecords_itemType (cat : Catalog) (uid : ℕ) (baits : List (ℕ × ℕ)) :
    ∀ rec ∈ baitLogRecords cat uid baits, rec.itemType = ItemKind.bait := by
  intro rec hrec
  simp only [baitLogRecords] at hrec
  obtain ⟨p, _, hmap⟩ := List.mem_filterMap.mp hrec
  split at hmap
  · split at hmap
    · rw [← Option.some_inj.mp hmap]
      rfl
    · exact absurd hmap (by simp)
  · exact absurd hmap (by simp)

lemma coinLogRecords_itemType (uid total : ℕ) :
    ∀ rec ∈ coinLogRecords uid total, rec.itemType = ItemKind.coins := by
  intro rec hrec
  simp only [coinLogRecords] at hrec
  by_cases h : 0 < total
  · rw [if_pos h] at hrec
    simp at hrec
    rw [hrec]
    rfl
  · rw [if_neg h] at hrec
    exact absurd hrec (by simp)

lemma titleLogRecords_itemType (cat : Catalog) (uid : ℕ) (titles : List ℕ) :
    ∀ rec ∈ titleLogRecords cat uid titles, rec.itemType = ItemKind.titles := by
  intro rec hrec
  simp only [titleLogRecords] at hrec
  obtain ⟨tid, _, hmap⟩ := List.mem_filterMap.mp hrec
  obtain ⟨t, _, hrec2⟩ := Option.map_eq_some'.mp hmap
  rw [← hrec2]
  rfl

lemma gachaLogRecords_filter_kind (cat : Catalog) (uid : ℕ)
    (dr : List GachaPoolItem) :
    (gachaLogRecords cat uid dr).filter (fun rec => rec.itemType == ItemKind.rod) =
      rodLogRecords cat uid (dr.filter (fun it => it.itemType == ItemKind.rod)) ∧
    (gachaLogRecords cat uid dr).filter (fun rec => rec.itemType == ItemKind.accessory) =
      accessoryLogRecords cat uid
        (dr.filter (fun it => it.itemType == ItemKind.accessory)) ∧
    (gachaLogRecords cat uid dr).filter (fun rec => rec.itemType == ItemKind.bait) =
      baitLogRecords cat uid (aggregateBaits dr) := by
  have hself : ∀ (l : List GachaRecord) (k : ItemKind),
      (∀ rec ∈ l, rec.itemType = k) →
      l.filter (fun rec => rec.itemType == k) = l := by
    intro l k hl
    apply List.filter_eq_self.mpr
    intro rec hrec
    rw [hl rec hrec]
    cases k <;> rfl
  have hnil : ∀ (l : List GachaRecord) (k k2 : ItemKind), (k == k2) = false →
      (∀ rec ∈ l, rec.itemType = k) →
      l.filter (fun rec => rec.itemType == k2) = [] := by
    intro l k k2 hne hl
    apply List.filter_eq_nil_iff.mpr
    intro rec hrec
    rw [hl rec hrec]
    simp [hne]
  refine ⟨?_, ?_, ?_⟩
  · simp only [gachaLogRecords, List.filter_append]
    rw [hself _ _ (rodLogRecords_itemType cat uid _),
      hnil _ _ _ (by decide) (accessoryLogRecords_itemType cat uid _),
      hnil _ _ _ (by decide) (baitLogRecords_itemType cat uid _),
      hnil _ _ _ (by decide) (coinLogRecords_itemType uid _),
      hnil _ _ _ (by decide) (titleLogRecords_itemType cat uid _)]
    simp
  · simp only [gachaLogRecords, List.filter_append]
    rw [hself _ _ (accessoryLogRecords_itemType cat uid _),
      hnil _ _ _ (by decide) (rodLogRecords_itemType cat uid _),
      hnil _ _ _ (by decide) (baitLogRecords_itemType cat uid _),
      hnil _ _ _ (by decide) (coinLogRecords_itemType uid _),
      hnil _ _ _ (by decide) (titleLogRecords_itemType cat uid _)]
    simp
  · simp only [gachaLogRecords, List.filter_append]
    rw [hself _ _ (baitLogRecords_itemType cat uid _),
      hnil _ _ _ (by decide) (rodLogRecords_itemType cat uid _),
      hnil _ _ _ (by decide) (accessoryLogRecords_itemType cat uid _),
      hnil _ _ _ (by decide) (coinLogRecords_itemType uid _),
      hnil _ _ _ (by decide) (titleLogRecords_itemType cat uid _)]
    simp

/-- C4 (amended): `_grant_rewards_batch` appends exactly `gachaLogRecords`
to the audit log; for rods and accessories this is one audit row per
ORIGINALLY DRAWN unit with a known template (per-unit logging as claimed),
but for baits it is one audit row per DISTINCT bait template (with known
template and positive aggregated total), carrying the SUMMED quantity of all
draws of that template — not one row per draw with the individual
quantity. -/
theorem claim_C4 (cat : Catalog) (uid : ℕ) (dr : List GachaPoolItem) (st : GState) :
    (grantRewardsBatch cat uid dr st).1.log = st.log ++ gachaLogRecords cat uid dr ∧
    ((gachaLogRecords cat uid dr).filter
        (fun rec => rec.itemType == ItemKind.rod)).length =
      ((dr.filter (fun it => it.itemType == ItemKind.rod)).filter
        (fun it => (lookupRod cat it.itemId).isSome)).length ∧
    ((gachaLogRecords cat uid dr).filter
        (fun rec => rec.itemType == ItemKind.accessory)).length =
      ((dr.filter (fun it => it.itemType == ItemKind.accessory)).filter
        (fun it => (lookupAccessory cat it.itemId).isSome)).length ∧
    ((gachaLogRecords cat uid dr).filter
        (fun rec => rec.itemType == ItemKind.bait)).length =
      ((aggregateBaits dr).filter
        (fun p => (lookupBait cat p.1).isSome && decide (0 < p.2))).length ∧
    (∀ p ∈ aggregateBaits dr, ∀ t, lookupBait cat p.1 = some t → 0 < p.2 →
      mkGachaRecord uid 0 ItemKind.bait p.1 t.name p.2 t.rarity ∈
        gachaLogRecords cat uid dr) := by
  obtain ⟨hrod, hacc, hbait⟩ := gachaLogRecords_filter_kind cat uid dr
  refine ⟨rfl, ?_, ?_, ?_, ?_⟩
  · rw [hrod, rodLogRecords]
    exact length_filterMap_map (fun (it : GachaPoolItem) => lookupRod cat it.itemId)
      (fun (it : GachaPoolItem) (t : RodTemplate) =>
        mkGachaRecord uid it.gachaPoolId ItemKind.rod it.itemId
          t.name it.quantity t.rarity) _
  · rw [hacc, accessoryLogRecords]
    exact length_filterMap_map (fun (it : GachaPoolItem) => lookupAccessory cat it.itemId)
      (fun (it : GachaPoolItem) (t : AccessoryTemplate) =>
        mkGachaRecord uid it.gachaPoolId ItemKind.accessory it.itemId
          t.name it.quantity t.rarity) _
  · rw [hbait]
    exact length_baitLogRecords cat uid _
  · intro p hp t ht hq
    have hmem : mkGachaRecord uid 0 ItemKind.bait p.1 t.name p.2 t.rarity ∈
        baitLogRecords cat uid (aggregateBaits dr) := by
      apply List.mem_filterMap.mpr
      exact ⟨p, hp, by rw [ht]; simp [hq]⟩
    simp only [gachaLogRecords, List.mem_append]
    tauto

/-- Bait-only catalog for the C4 scenario. -/
def c4cat : Catalog := ⟨[], [], [(1, ⟨"worm", 2⟩)], []⟩

/-- Two separate draws of the SAME bait template (id 1), quantity 1 each. -/
def c4draws : List GachaPoolItem :=
  [⟨3, ItemKind.bait, 1, 1, 5⟩, ⟨3, ItemKind.bait, 1, 1, 5⟩]

def c4st : GState := ⟨0, ⟨[], 1⟩, ⟨[], 1⟩, [], [], []⟩

/-- C4 counterexample: the bait template is drawn in `m = 2` distinct draws
(quantity 1 each), yet `_grant_rewards_batch` writes exactly ONE audit row,
carrying the aggregated quantity 2 — not two rows with the individual draw
quantities as claimed. -/
theorem claim_C4_counterexample :
    (c4draws.filter (fun it => it.itemType == ItemKind.bait)).length = 2 ∧
    (grantRewardsBatch c4cat 7 c4draws c4st).1.log =
      [mkGachaRecord 7 0 ItemKind.bait 1 "worm" 2 2] := by
  constructor <;> decide

/-- C4 witness: the amended theorem instantiated on the concrete double-draw
scenario — the log appended is `gachaLogRecords` and the aggregated entry
`(1, 2)` yields its single summed audit row. -/
theorem claim_C4_witness :
    (grantRewardsBatch c4cat 7 c4draws c4st).1.log =
      c4st.log ++ gachaLogRecords c4cat 7 c4draws ∧
    mkGachaRecord 7 0 ItemKind.bait 1 "worm" 2 2 ∈ gachaLogRecords c4cat 7 c4draws :=
  ⟨(claim_C4 c4cat 7 c4draws c4st).1,
    (claim_C4 c4cat 7 c4draws c4st).2.2.2.2 (1, 2) (by decide) ⟨"worm", 2⟩
      (by decide) (by decide)⟩

/-! ## The oversized-batch ("万连", 10000-draw) path of `main.py`

The loop runs 5 sub-batches of `batch_size = 2000` draws each, calling
`perform_draw` per sub-batch; whether a sub-batch call reports success is
abstracted by the oracle `succeeds` (a failing `perform_draw` debits
nothing).  Each successful sub-batch debits `2000 * cost_coins` inside
`perform_draw`; on the first failing sub-batch the loop stops, computes
`remaining_batches = 5 - batch` (the 0-based index of the FAILED batch, so
the failed batch itself counts as remaining), adds
`remaining_batches * batch_size * cost_coins` to the user's balance and
reports the 1-based failed batch index. -/

/-- `batch_size = 2000`. -/
def ttgBatchSize : ℕ := 2000

/-- Result of the sub-batch loop: completed draw count (`processed`), the
1-based index of the failed sub-batch (`none` when all five succeeded), the
currency amount added back on failure, and the final balance. -/
structure TTGOutcome where
  processed : ℕ
  failedAtBatch : Option ℕ
  refundAdded : ℕ
  coins : ℤ
deriving DecidableEq, Repr

/-- The `for batch in range(5)` loop over the remaining 0-based sub-batch
indices. -/
def ttgGo (cost : ℕ) (succeeds : ℕ → Bool) :
    List ℕ → ℕ → ℤ → TTGOutcome
  | [], processed, coins => ⟨processed, none, 0, coins⟩
  | b :: rest, processed, coins =>
    if succeeds b then
      ttgGo cost succeeds rest (processed + ttgBatchSize)
        (coins - (ttgBatchSize * cost : ℕ))
    else
      ⟨processed, some (b + 1), (5 - b) * ttgBatchSize * cost,
        coins + ((5 - b) * ttgBatchSize * cost : ℕ)⟩

/-- The sub-batch phase of `ten_thousand_gacha` (after admission and
validation). -/
def ttgRunBatches (cost : ℕ) (succeeds : ℕ → Bool) (coins : ℤ) : TTGOutcome :=
  ttgGo cost succeeds (List.range 5) 0 coins

/-- The admission-gate responses of `ten_thousand_gacha`. -/
inductive TTGResponse
  | busySelf
  | busyOther (holder : Option ℕ)
  | completed (outcome : TTGOutcome)
deriving DecidableEq, Repr

/-- The `ten_thousand_gacha` command: the FIRST thing checked is the
process-wide lock; while it is held by another user the command immediately
reports busy, naming the current holder, and returns before any debit or
other state change; held by the caller it reports a different
already-running message; otherwise the sub-batch loop runs. -/
def tenThousandGacha (lock : Bool) (holder : Option ℕ) (caller : ℕ)
    (cost : ℕ) (succeeds : ℕ → Bool) (coins : ℤ) : TTGResponse × ℤ :=
  if lock then
    if holder = some caller then (TTGResponse.busySelf, coins)
    else (TTGResponse.busyOther holder, coins)
  else
    let outcome := ttgRunBatches cost succeeds coins
    (TTGResponse.completed outcome, outcome.coins)

/-- C1 counterexample: cost 1 per draw, sub-batches 1 and 2 succeed and
sub-batch 3 fails (`succeeds i = (i < 2)` on 0-based indices).  The code
adds back `(5 - 2) * 2000 * 1 = 6000` — the claimed formula
`(5 - k) * 2000 * cost = 4000` does not match, and only 4000 draws (not
6000) completed. -/
theorem claim_C1_counterexample :
    ttgRunBatches 1 (fun i => decide (i < 2)) 100000 =
      ⟨4000, some 3, 6000, 102000⟩ ∧
    (6000 : ℕ) ≠ (5 - 3) * 2000 * 1 := by
  constructor <;> decide

/-- C1 (amended): if sub-batch `k` (1-based, `1 ≤ k ≤ 5`) is the first to
fail, the amount added back to the user's balance is
`(5 - (k - 1)) * 2000 * cost = (6 - k) * 2000 * cost` — the count of
remaining sub-batches INCLUDING the failed one (which debited nothing) —
while `(k - 1) * 2000` draws completed; in particular a failure at sub-batch
3 of 5 adds back 6000 draws' worth of currency with 4000 draws completed,
not 4000 refunded as claimed. -/
theorem claim_C1 (cost : ℕ) (succeeds : ℕ → Bool) (coins : ℤ) (k : ℕ)
    (hk1 : 1 ≤ k) (hk5 : k ≤ 5)
    (hsucc : ∀ i, i < k - 1 → succeeds i = true)
    (hfail : succeeds (k - 1) = false) :
    ttgRunBatches cost succeeds coins =
      ⟨(k - 1) * ttgBatchSize, some k, (6 - k) * ttgBatchSize * cost,
        coins - ((k - 1) * ttgBatchSize * cost : ℕ) +
          ((6 - k) * ttgBatchSize * cost : ℕ)⟩ := by
  interval_cases k
  · simp only [ttgRunBatches, List.range_succ, List.range_zero]
    norm_num at hfail ⊢
    simp [ttgGo, hfail, ttgBatchSize]
  · simp only [ttgRunBatches, List.range_succ, List.range_zero]
    norm_num at hfail ⊢
    simp [ttgGo, hfail, hsucc 0 (by norm_num), ttgBatchSize]
  · simp only [ttgRunBatches, List.range_succ, List.range_zero]
    norm_num at hfail ⊢
    simp [ttgGo, hfail, hsucc 0 (by norm_num), hsucc 1 (by norm_num), ttgBatchSize]
    ring
  · simp only [ttgRunBatches, List.range_succ, List.range_zero]
    norm_num at hfail ⊢
    simp [ttgGo, hfail, hsucc 0 (by norm_num), hsucc 1 (by norm_num),
      hsucc 2 (by norm_num), ttgBatchSize]
    ring
  · simp only [ttgRunBatches, List.range_succ, List.range_zero]
    norm_num at hfail ⊢
    simp [ttgGo, hfail, hsucc 0 (by norm_num), hsucc 1 (by norm_num),
      hsucc 2 (by norm_num), hsucc 3 (by norm_num), ttgBatchSize]
    ring

/-- C1 witness: the amended theorem instantiated at cost 1, failure at
sub-batch 3, starting balance 100000. -/
theorem claim_C1_witness :
    ttgRunBatches 1 (fun i => decide (i < 2)) 100000 =
      ⟨(3 - 1) * ttgBatchSize, some 3, (6 - 3) * ttgBatchSize * 1,
        100000 - ((3 - 1) * ttgBatchSize * 1 : ℕ) +
          ((6 - 3) * ttgBatchSize * 1 : ℕ)⟩ :=
  claim_C1 1 (fun i => decide (i < 2)) 100000 3 (by norm_num) (by norm_num)
    (by intro i hi; simpa using hi) (by decide)

/-- C9: an oversized-batch request arriving while the admission slot is held
by ANOTHER user is rejected immediately with a busy response carrying the
current holder's identity; it is not queued and the caller's balance (and
all other state) is untouched — no debit occurs. -/
theorem claim_C9 (holder caller : ℕ) (cost : ℕ) (succeeds : ℕ → Bool)
    (coins : ℤ) (hne : holder ≠ caller) :
    tenThousandGacha true (some holder) caller cost succeeds coins =
      (TTGResponse.busyOther (some holder), coins) := by
  have h2 : ¬ (some holder = some caller) := by
    intro h
    exact hne (Option.some_inj.mp h)
  simp [tenThousandGacha, h2]

/-- C9 witness: user 2 requests a 万连 while user 1 holds the slot — the
response is busy-naming-user-1 and the balance 5000 is unchanged. -/
theorem claim_C9_witness :
    tenThousandGacha true (some 1) 2 100 (fun _ => true) 5000 =
      (TTGResponse.busyOther (some 1), 5000) :=
  claim_C9 1 2 100 (fun _ => true) 5000 (by decide)
